import Mathlib

/-!
# Verification of the MTA Ridership Explorer core (dashboard_streamlit.py)

A shallow embedding of the data-aggregation and forecasting pipeline of the
dashboard.  A row of the master dataframe becomes a `RidershipRecord`; the
pandas operations the dashboard performs (boolean-mask filtering, an
hour-of-day `groupby`, daily and weekly `resample(...).sum()`, a two-key
`groupby`, and a bounded `sample`) become explicit list functions with the
pandas semantics spelled out:

* `groupby` (default `sort=True`, `dropna=True`) emits one bucket per key
  value actually present, keys ascending, and drops rows whose key is null;
* `resample('D').sum()` emits one bin per calendar day from the first to the
  last observed date inclusive, empty bins summing to 0;
* `resample('W').sum()` uses `W-SUN` bins: right-closed weekly bins labelled
  by the Sunday that ends them;
* `DataFrame.sample(n)` draws `n` distinct row positions without replacement.

Dates are epoch day counts (day 0 = 1970-01-01, a Thursday), so pandas
`Timestamp.dayofweek` (Monday = 0 … Sunday = 6) is `(day + 3) % 7`.
The Prophet calls (`fit`, `make_future_dataframe`, `predict`) are external
library code; the parts of their behaviour the dashboard relies on are
modelled from the specification and marked as such.
-/

namespace Dashboard

/-- A parsed `transit_timestamp`: the calendar date as an epoch day count and
the hour of day (`dt.hour`, always in `0..23`). Sub-hour detail is irrelevant
to every operation the dashboard performs. -/
structure Timestamp where
  day : Nat
  hour : Fin 24
  deriving DecidableEq, Repr

/-- One row of the master dataframe (`load_data`, lines 19-22): the loaded CSV
columns plus the derived `hour` column, which `load_data` sets to
`transit_timestamp.dt.hour` and which is the `hour` field of `Timestamp` here.
`payment_method`, `fare_class_category` and `distance_to_central` are the
optional columns; a missing (NaN) value is `none`. -/
structure RidershipRecord where
  transit_timestamp : Timestamp
  station_complex : String
  borough : String
  ridership : Int
  latitude : Rat
  longitude : Rat
  payment_method : Option String
  fare_class_category : Option String
  distance_to_central : Option Rat
  deriving DecidableEq, Repr

/-- A dataframe of ridership rows, in row order. -/
abbrev Table := List RidershipRecord

/-- The calendar date (`dt.date`) of a row, as an epoch day count. -/
def dayOf (r : RidershipRecord) : Nat := r.transit_timestamp.day

/-- The derived `hour` column of a row (`df['hour'] = df['transit_timestamp'].dt.hour`). -/
def hourOf (r : RidershipRecord) : Nat := r.transit_timestamp.hour.val

/-- Sum of the `ridership` column over a table. -/
def sumR (df : Table) : Int := (df.map RidershipRecord.ridership).sum

/-- Sum of the aggregated values over all buckets of an aggregate. -/
def sumVals {K : Type} (agg : List (K × Int)) : Int := (agg.map Prod.snd).sum

/-- Lines 54-57: `df_master.loc[(dt.date >= date_range[0]) & (dt.date <= date_range[1])]` —
boolean-mask selection on the calendar date, inclusive on both ends, order preserved. -/
def filterDate (df : Table) (a b : Nat) : Table :=
  df.filter (fun r => decide (a ≤ dayOf r) && decide (dayOf r ≤ b))

/-- Line 64: `filtered[filtered['station_complex'] == selected_station]` —
boolean-mask selection by exact string equality, order preserved. -/
def filterStation (df : Table) (s : String) : Table :=
  df.filter (fun r => decide (r.station_complex = s))

/-- Line 73: `df_station.groupby('hour')['ridership'].sum().reset_index()`.
pandas `groupby` (default `sort=True`) emits one row per key value present in
the table, keys ascending; the `hour` key is never null, so no row is dropped. -/
def hourly (df : Table) : List (Nat × Int) :=
  ((List.range 24).filter (fun h => df.any (fun r => decide (hourOf r = h)))).map
    (fun h => (h, sumR (df.filter (fun r => decide (hourOf r = h)))))

/-- The day bins of `resample('D')`: every calendar day from the first to the
last observed date inclusive; no bins on an empty table. -/
def spanDays (df : Table) : List Nat :=
  match (df.map dayOf).min?, (df.map dayOf).max? with
  | some a, some b => (List.range (b + 1 - a)).map (fun i => a + i)
  | _, _ => []

/-- Lines 82 and 27-33: `set_index('transit_timestamp')['ridership'].resample('D').sum()`.
One (day, sum) pair per day of `spanDays`; a day with no rows sums to 0
(pandas fills empty bins with the empty sum).  Also the `ts` of
`prep_forecast` and the `daily` series of the dashboard. -/
def resampleD (df : Table) : List (Nat × Int) :=
  (spanDays df).map (fun d => (d, sumR (df.filter (fun r => decide (dayOf r = d)))))

/-- pandas `Timestamp.dayofweek`: Monday = 0 … Sunday = 6.  Epoch day 0
(1970-01-01) is a Thursday, i.e. 3. -/
def dayofweek (d : Nat) : Nat := (d + 3) % 7

/-- The first Sunday on or after day `d`: the label `resample('W')` (= `W-SUN`,
right-closed, right-labelled) assigns to a row dated `d`. -/
def sundayOnOrAfter (d : Nat) : Nat := d + (6 - dayofweek d)

/-- The week bins of `resample('W')`: every Sunday from the label of the first
observed date to the label of the last, seven days apart. -/
def spanSundays (df : Table) : List Nat :=
  match (df.map dayOf).min?, (df.map dayOf).max? with
  | some a, some b =>
      (List.range ((sundayOnOrAfter b - sundayOnOrAfter a) / 7 + 1)).map
        (fun i => sundayOnOrAfter a + 7 * i)
  | _, _ => []

/-- Line 83: `set_index('transit_timestamp')['ridership'].resample('W').sum()`.
`W-SUN` bins: one (Sunday, sum) pair per bin, a row dated `d` landing in the
bin labelled `sundayOnOrAfter d`; empty bins sum to 0. -/
def resampleW (df : Table) : List (Nat × Int) :=
  (spanSundays df).map
    (fun w => (w, sumR (df.filter (fun r => decide (sundayOnOrAfter (dayOf r) = w)))))

/-- The two-column group key of `groupby(['payment_method', 'fare_class_category'])`:
`some` pair when both key columns are present, `none` when either is missing
(NaN), in which case pandas (default `dropna=True`) drops the row. -/
def bothKeys (r : RidershipRecord) : Option (String × String) :=
  match r.payment_method, r.fare_class_category with
  | some p, some f => some (p, f)
  | _, _ => none

/-- Lexicographic order on the two-column group keys, as pandas sorts the
group index. -/
def pairLE (a b : String × String) : Bool :=
  decide (a.1 < b.1) || (decide (a.1 = b.1) && decide (a.2 ≤ b.2))

/-- Lines 154-157: `df_station.groupby(['payment_method', 'fare_class_category'])['ridership'].sum().reset_index(name='revenue')`.
pandas `groupby` with default `dropna=True` keeps only rows whose key columns
are both present, and emits one bucket per distinct key pair, sorted. -/
def rev_df (df : Table) : List ((String × String) × Int) :=
  (((df.filterMap bothKeys).dedup).mergeSort pairLE).map
    (fun k => (k, sumR (df.filter (fun r => decide (bothKeys r = some k)))))

/-- The last observed calendar date of a table (0 on an empty table). -/
def maxDay (df : Table) : Nat := ((df.map dayOf).max?).getD 0

/-- The first observed calendar date of a table (0 on an empty table). -/
def minDay (df : Table) : Nat := ((df.map dayOf).min?).getD 0

/-- The error taxonomy entry for the Forecaster (§7 of the specification). -/
inductive ForecastError where
  | insufficientHistory
  deriving DecidableEq, Repr

/-- Modelled from the spec: the Prophet `m.fit(ts)` call (line 35) is external
library code; §4.4 says `fit(series)` fails with `ForecastError` when
`len(series) < 2` (cannot estimate trend).  Only the failure condition is
modelled; a successful fit is the fitted series itself. -/
def fitModel (series : List (Nat × Int)) : Except ForecastError (List (Nat × Int)) :=
  if series.length < 2 then .error .insufficientHistory else .ok series

/-- Modelled from the spec: the Prophet `m.make_future_dataframe(periods=days)`
call (line 36) is external library code; §4.4 says the forecast covers every
historical date of the input series plus exactly `days` future dates strictly
following the last observed date, each one calendar day apart.  With the
default `include_history=True` and `freq='D'` the prediction dates are the
historical dates followed by `days` consecutive days after the last one. -/
def make_future_dates (series : List (Nat × Int)) (days : Nat) : List Nat :=
  match (series.map Prod.fst).max? with
  | none => []
  | some last => series.map Prod.fst ++ (List.range days).map (fun i => last + 1 + i)

/-- Lines 27-38 and 112: the dates carried by the `forecast` dataframe of
`prep_forecast(df_station, days)`: the model is fitted on the daily resample
`ts` and predicted over `make_future_dataframe(periods=days)`. -/
def forecast_dates (df : Table) (days : Nat) : List Nat :=
  make_future_dates (resampleD df) days

/-- Line 175: the requested sample size `min(len(df_station), 2000)`. -/
def sampleSize (df : Table) : Nat := min df.length 2000

/-- A possible draw of pandas `DataFrame.sample(n)` (line 175, no seed, default
`replace=False`): `n` distinct row positions of the table.  The draw itself is
random, so it is modelled relationally over all possible position lists. -/
def IsSampleDraw (df : Table) (n : Nat) (idxs : List Nat) : Prop :=
  idxs.Nodup ∧ idxs.length = n ∧ ∀ i ∈ idxs, i < df.length

/-- Line 175: `df_station.sample(...)` — the rows of the table at the drawn
positions, in draw order. -/
def samp (df : Table) (idxs : List Nat) : Table :=
  idxs.filterMap (fun i => df[i]?)

/-! ## Helper lemmas -/

/-- Summing `if c = k then v else 0` over a duplicate-free key list containing
`c` yields `v`. -/
theorem sum_map_ite_eq {K : Type} [DecidableEq K] (keys : List K) (c : K) (v : Int)
    (hnd : keys.Nodup) (hc : c ∈ keys) :
    (keys.map (fun k => if c = k then v else 0)).sum = v := by
  induction keys with
  | nil => cases hc
  | cons a t ih =>
    rw [List.map_cons, List.sum_cons]
    rcases List.mem_cons.mp hc with rfl | hct
    · rw [if_pos rfl, List.sum_eq_zero, add_zero]
      intro x hx
      rcases List.mem_map.mp hx with ⟨k, hk, rfl⟩
      have hck : c ≠ k := fun h => (List.nodup_cons.mp hnd).1 (h ▸ hk)
      simp [hck]
    · have hca : c ≠ a := fun h => (List.nodup_cons.mp hnd).1 (h ▸ hct)
      rw [if_neg hca, ih (List.nodup_cons.mp hnd).2 hct, zero_add]

/-- Partition identity: bucketing a table by any key function over a
duplicate-free key list covering every row, and summing the per-bucket
ridership sums, recovers the ridership total of the table. -/
theorem sum_filter_partition {K : Type} [DecidableEq K] (keyOf : RidershipRecord → K)
    (keys : List K) (df : Table) (hnd : keys.Nodup)
    (hcov : ∀ r ∈ df, keyOf r ∈ keys) :
    (keys.map (fun k => sumR (df.filter (fun r => decide (keyOf r = k))))).sum = sumR df := by
  induction df with
  | nil => simp [sumR]
  | cons r t ih =>
    have hr : keyOf r ∈ keys := hcov r (List.mem_cons_self r t)
    have ht : ∀ x ∈ t, keyOf x ∈ keys := fun x hx => hcov x (List.mem_cons_of_mem r hx)
    have step : ∀ k : K, sumR ((r :: t).filter (fun x => decide (keyOf x = k)))
        = (if keyOf r = k then r.ridership else 0)
          + sumR (t.filter (fun x => decide (keyOf x = k))) := by
      intro k
      by_cases h : keyOf r = k
      · simp [List.filter_cons, h, sumR]
      · simp [List.filter_cons, h, sumR]
    simp only [step]
    rw [List.sum_map_add, sum_map_ite_eq keys (keyOf r) r.ridership hnd hr, ih ht]
    simp [sumR]

/-- Summing the bucket values of an aggregate built by pairing each key with a
value function. -/
theorem sumVals_map {K : Type} (keys : List K) (g : K → Int) :
    sumVals (keys.map (fun k => (k, g k))) = (keys.map g).sum := by
  simp [sumVals, List.map_map, Function.comp_def]

/-- The calendar date of every row lies in the day bins of `resample('D')`. -/
theorem dayOf_mem_spanDays (df : Table) (r : RidershipRecord) (hr : r ∈ df) :
    dayOf r ∈ spanDays df := by
  have hmem : dayOf r ∈ df.map dayOf := List.mem_map_of_mem dayOf hr
  obtain ⟨a, ha⟩ : ∃ a, (df.map dayOf).min? = some a := by
    cases h : (df.map dayOf).min? with
    | none => rw [List.min?_eq_none_iff] at h; rw [h] at hmem; cases hmem
    | some a => exact ⟨a, rfl⟩
  obtain ⟨b, hb⟩ : ∃ b, (df.map dayOf).max? = some b := by
    cases h : (df.map dayOf).max? with
    | none => rw [List.max?_eq_none_iff] at h; rw [h] at hmem; cases hmem
    | some b => exact ⟨b, rfl⟩
  have h1 := (List.min?_eq_some_iff'.mp ha).2 _ hmem
  have h2 := (List.max?_eq_some_iff'.mp hb).2 _ hmem
  unfold spanDays
  rw [ha, hb]
  exact List.mem_map.mpr ⟨dayOf r - a, List.mem_range.mpr (by omega), by omega⟩

/-- The day bins of `resample('D')` are duplicate-free. -/
theorem spanDays_nodup (df : Table) : (spanDays df).Nodup := by
  unfold spanDays
  cases (df.map dayOf).min? with
  | none => exact List.nodup_nil
  | some a =>
    cases (df.map dayOf).max? with
    | none => exact List.nodup_nil
    | some b => exact (List.nodup_range _).map (fun i j h => by omega)

/-- The weekly label of every row lies in the week bins of `resample('W')`. -/
theorem sunday_mem_spanSundays (df : Table) (r : RidershipRecord) (hr : r ∈ df) :
    sundayOnOrAfter (dayOf r) ∈ spanSundays df := by
  have hmem : dayOf r ∈ df.map dayOf := List.mem_map_of_mem dayOf hr
  obtain ⟨a, ha⟩ : ∃ a, (df.map dayOf).min? = some a := by
    cases h : (df.map dayOf).min? with
    | none => rw [List.min?_eq_none_iff] at h; rw [h] at hmem; cases hmem
    | some a => exact ⟨a, rfl⟩
  obtain ⟨b, hb⟩ : ∃ b, (df.map dayOf).max? = some b := by
    cases h : (df.map dayOf).max? with
    | none => rw [List.max?_eq_none_iff] at h; rw [h] at hmem; cases hmem
    | some b => exact ⟨b, rfl⟩
  have h1 := (List.min?_eq_some_iff'.mp ha).2 _ hmem
  have h2 := (List.max?_eq_some_iff'.mp hb).2 _ hmem
  unfold spanSundays
  rw [ha, hb]
  refine List.mem_map.mpr
    ⟨(sundayOnOrAfter (dayOf r) - sundayOnOrAfter a) / 7, List.mem_range.mpr ?_, ?_⟩
  · unfold sundayOnOrAfter dayofweek; omega
  · unfold sundayOnOrAfter dayofweek; omega

/-- The week bins of `resample('W')` are duplicate-free. -/
theorem spanSundays_nodup (df : Table) : (spanSundays df).Nodup := by
  unfold spanSundays
  cases (df.map dayOf).min? with
  | none => exact List.nodup_nil
  | some a =>
    cases (df.map dayOf).max? with
    | none => exact List.nodup_nil
    | some b => exact (List.nodup_range _).map (fun i j h => by omega)

/-- The hour-of-day aggregate preserves the ridership total. -/
theorem hourly_total (df : Table) : sumVals (hourly df) = sumR df := by
  unfold hourly
  rw [sumVals_map]
  apply sum_filter_partition hourOf
  · exact (List.nodup_range 24).filter _
  · intro r hr
    refine List.mem_filter.mpr ⟨List.mem_range.mpr r.transit_timestamp.hour.isLt, ?_⟩
    exact List.any_eq_true.mpr ⟨r, hr, by simp⟩

/-- The daily resample preserves the ridership total (empty bins add 0). -/
theorem resampleD_total (df : Table) : sumVals (resampleD df) = sumR df := by
  unfold resampleD
  rw [sumVals_map]
  exact sum_filter_partition dayOf (spanDays df) df (spanDays_nodup df)
    (dayOf_mem_spanDays df)

/-- The weekly resample preserves the ridership total (empty bins add 0). -/
theorem resampleW_total (df : Table) : sumVals (resampleW df) = sumR df := by
  unfold resampleW
  rw [sumVals_map]
  exact sum_filter_partition (fun r => sundayOnOrAfter (dayOf r)) (spanSundays df) df
    (spanSundays_nodup df) (sunday_mem_spanSundays df)

/-- The sorted, duplicate-free key list of the two-column group-by. -/
def revKeys (df : Table) : List (String × String) :=
  ((df.filterMap bothKeys).dedup).mergeSort pairLE

/-- The group-by key list is duplicate-free. -/
theorem revKeys_nodup (df : Table) : (revKeys df).Nodup :=
  ((List.mergeSort_perm (df.filterMap bothKeys).dedup pairLE).nodup_iff).mpr
    (List.nodup_dedup _)

/-- Membership in the group-by key list. -/
theorem mem_revKeys (df : Table) (k : String × String) :
    k ∈ revKeys df ↔ k ∈ df.filterMap bothKeys := by
  rw [revKeys, (List.mergeSort_perm _ pairLE).mem_iff, List.mem_dedup]

/-- Selecting the rows of one group key ignores rows with a missing key. -/
theorem filter_key_restrict (df : Table) (k : String × String) :
    df.filter (fun r => decide (bothKeys r = some k))
      = (df.filter (fun r => (bothKeys r).isSome)).filter
          (fun r => decide (bothKeys r = some k)) := by
  rw [List.filter_filter]
  apply List.filter_congr
  intro r _
  by_cases h : bothKeys r = some k <;> simp [h]

/-- Rows with a missing group key contribute nothing to the extracted keys. -/
theorem filterMap_bothKeys_restrict (df : Table) :
    (df.filter (fun r => (bothKeys r).isSome)).filterMap bothKeys
      = df.filterMap bothKeys := by
  induction df with
  | nil => rfl
  | cons r t ih =>
    cases h : bothKeys r with
    | none => simp [List.filter_cons, List.filterMap_cons, h, ih]
    | some p => simp [List.filter_cons, List.filterMap_cons, h, ih]

/-- The two-column group-by total equals the ridership sum over the rows whose
two key columns are both present (pandas drops the others). -/
theorem rev_df_total (df : Table) :
    sumVals (rev_df df) = sumR (df.filter (fun r => (bothKeys r).isSome)) := by
  unfold rev_df
  rw [sumVals_map]
  have hkeys : ∀ k ∈ revKeys df,
      sumR (df.filter (fun r => decide (bothKeys r = some k)))
        = sumR ((df.filter (fun r => (bothKeys r).isSome)).filter
            (fun r => decide ((bothKeys r).getD ("", "") = k))) := by
    intro k _
    rw [filter_key_restrict df k]
    congr 1
    apply List.filter_congr
    intro r hr
    have hsome : (bothKeys r).isSome := by
      have := List.mem_filter.mp hr
      exact this.2
    obtain ⟨p, hp⟩ := Option.isSome_iff_exists.mp hsome
    simp [hp]
  have hfold : (df.filterMap bothKeys).dedup.mergeSort pairLE = revKeys df := rfl
  rw [hfold, List.map_congr_left hkeys]
  apply sum_filter_partition (fun r => (bothKeys r).getD ("", ""))
  · exact revKeys_nodup df
  · intro r hr
    have hsome : (bothKeys r).isSome := (List.mem_filter.mp hr).2
    obtain ⟨p, hp⟩ := Option.isSome_iff_exists.mp hsome
    rw [mem_revKeys, ← filterMap_bothKeys_restrict]
    exact List.mem_filterMap.mpr ⟨r, hr, by simp [hp]⟩

/-- The two-column group-by of a table equals that of the table restricted to
rows whose two key columns are both present. -/
theorem rev_df_restrict (df : Table) :
    rev_df df = rev_df (df.filter (fun r => (bothKeys r).isSome)) := by
  unfold rev_df
  rw [filterMap_bothKeys_restrict]
  apply List.map_congr_left
  intro k _
  rw [← filter_key_restrict df k]

/-- On a non-empty table the earliest and latest observed dates exist. -/
theorem minmax_some (df : Table) (hne : df ≠ []) :
    (df.map dayOf).min? = some (minDay df) ∧ (df.map dayOf).max? = some (maxDay df) := by
  have hmapne : df.map dayOf ≠ [] := by simp [hne]
  constructor
  · cases h : (df.map dayOf).min? with
    | none => exact absurd (List.min?_eq_none_iff.mp h) hmapne
    | some a => simp [minDay, h]
  · cases h : (df.map dayOf).max? with
    | none => exact absurd (List.max?_eq_none_iff.mp h) hmapne
    | some b => simp [maxDay, h]

/-- The earliest observed date is at most the latest. -/
theorem minDay_le_maxDay (df : Table) (hne : df ≠ []) : minDay df ≤ maxDay df := by
  obtain ⟨hmin, hmax⟩ := minmax_some df hne
  exact (List.max?_eq_some_iff'.mp hmax).2 _ (List.min?_eq_some_iff'.mp hmin).1

/-- On a non-empty table the day bins of `resample('D')` are exactly the
calendar days between the first and last observed dates, inclusive. -/
theorem mem_spanDays_iff (df : Table) (hne : df ≠ []) (d : Nat) :
    d ∈ spanDays df ↔ minDay df ≤ d ∧ d ≤ maxDay df := by
  obtain ⟨hmin, hmax⟩ := minmax_some df hne
  have hab : minDay df ≤ maxDay df := minDay_le_maxDay df hne
  unfold spanDays
  rw [hmin, hmax]
  constructor
  · intro h
    rcases List.mem_map.mp h with ⟨i, hi, rfl⟩
    have := List.mem_range.mp hi
    omega
  · intro h
    exact List.mem_map.mpr ⟨d - minDay df, List.mem_range.mpr (by omega), by omega⟩

/-- On a non-empty table the number of day bins is the length of the inclusive
span from the first to the last observed date. -/
theorem spanDays_length (df : Table) (hne : df ≠ []) :
    (spanDays df).length = maxDay df + 1 - minDay df := by
  obtain ⟨hmin, hmax⟩ := minmax_some df hne
  unfold spanDays
  rw [hmin, hmax, List.length_map, List.length_range]

/-- The day bins of `resample('D')` are strictly increasing. -/
theorem spanDays_sorted (df : Table) : (spanDays df).Pairwise (· < ·) := by
  unfold spanDays
  cases (df.map dayOf).min? with
  | none => exact List.Pairwise.nil
  | some a =>
    cases (df.map dayOf).max? with
    | none => exact List.Pairwise.nil
    | some b => exact (List.pairwise_lt_range _).map _ (fun h => by omega)

/-- The bucket keys of the daily resample are its day bins. -/
theorem resampleD_fst (df : Table) : (resampleD df).map Prod.fst = spanDays df := by
  simp [resampleD, List.map_map, Function.comp_def]

/-- There are at least as many day bins as distinct observed dates. -/
theorem dedup_days_le_span (df : Table) :
    ((df.map dayOf).dedup).length ≤ (spanDays df).length := by
  apply List.Subperm.length_le
  apply List.subperm_of_subset (List.nodup_dedup _)
  intro d hd
  rw [List.mem_dedup] at hd
  rcases List.mem_map.mp hd with ⟨r, hr, rfl⟩
  exact dayOf_mem_spanDays df r hr

/-- The greatest day bin of a non-empty daily resample is the last observed
date. -/
theorem spanDays_max_eq (df : Table) (hne : df ≠ []) :
    (spanDays df).max? = some (maxDay df) := by
  rw [List.max?_eq_some_iff']
  constructor
  · exact (mem_spanDays_iff df hne (maxDay df)).mpr ⟨minDay_le_maxDay df hne, le_refl _⟩
  · intro x hx
    exact ((mem_spanDays_iff df hne x).mp hx).2

/-- All four aggregations of the dashboard send the empty table to the empty
aggregate. -/
theorem aggregates_empty :
    hourly [] = [] ∧ resampleD [] = [] ∧ resampleW [] = [] ∧ rev_df [] = [] := by
  refine ⟨by simp [hourly], rfl, rfl, by simp [rev_df]⟩

/-- A draw at valid positions yields exactly one row per drawn position. -/
theorem samp_length (df : Table) (idxs : List Nat)
    (hvalid : ∀ i ∈ idxs, i < df.length) : (samp df idxs).length = idxs.length := by
  induction idxs with
  | nil => rfl
  | cons i t ih =>
    have hi : i < df.length := hvalid i (List.mem_cons_self i t)
    have hsome : df[i]? = some df[i] := List.getElem?_eq_getElem hi
    have ht := ih (fun j hj => hvalid j (List.mem_cons_of_mem i hj))
    simp only [samp, List.filterMap_cons, hsome, List.length_cons] at *
    omega

/-- Every sampled row is a row of the table. -/
theorem samp_mem (df : Table) (idxs : List Nat) (r : RidershipRecord)
    (hr : r ∈ samp df idxs) : r ∈ df := by
  rcases List.mem_filterMap.mp hr with ⟨i, _, hsome⟩
  exact List.getElem?_mem hsome

/-- Reading every position of a table in order reproduces the table. -/
theorem range_filterMap_getElem (df : Table) :
    (List.range df.length).filterMap (fun i => df[i]?) = df := by
  induction df with
  | nil => rfl
  | cons r t ih =>
    rw [List.length_cons, List.range_succ_eq_map, List.filterMap_cons]
    simp only [List.getElem?_cons_zero, List.filterMap_map]
    have hcomp : ((fun i => (r :: t)[i]?) ∘ Nat.succ) = fun i => t[i]? := by
      funext i
      simp
    rw [hcomp, ih]

/-- A draw without replacement at valid positions is a sub-permutation of the
table: every drawn row is a row of the table and no row position is drawn
twice. -/
theorem samp_subperm (df : Table) (idxs : List Nat) (hnd : idxs.Nodup)
    (hvalid : ∀ i ∈ idxs, i < df.length) : List.Subperm (samp df idxs) df := by
  have hsub : idxs ⊆ List.range df.length :=
    fun i hi => List.mem_range.mpr (hvalid i hi)
  obtain ⟨m, hperm, hsl⟩ := List.subperm_of_subset hnd hsub
  refine ⟨m.filterMap (fun i => df[i]?), hperm.filterMap _, ?_⟩
  have := hsl.filterMap (fun i => df[i]?)
  rwa [range_filterMap_getElem] at this

/-! ## Concrete rows for the closed evaluations -/

/-- A concrete row builder for the closed evaluations below. -/
def exRow (d : Nat) (h : Fin 24) (rid : Int) (pm fc : Option String) : RidershipRecord :=
  { transit_timestamp := ⟨d, h⟩, station_complex := "Times Sq-42 St",
    borough := "Manhattan", ridership := rid, latitude := 0, longitude := 0,
    payment_method := pm, fare_class_category := fc, distance_to_central := none }

/-- A row whose `payment_method` is missing (NaN): the two-key group-by drops it. -/
def nullKeyRow : RidershipRecord := exRow 0 0 5 none (some "Full Fare")

/-- A row observed on day 0, hour 1, with both grouping columns present. -/
def dayZeroRow : RidershipRecord := exRow 0 1 5 (some "omny") (some "Full Fare")

/-- A row observed on day 2, hour 2, with both grouping columns present. -/
def dayTwoRow : RidershipRecord := exRow 2 2 7 (some "omny") (some "Full Fare")

/-! ## The claims -/

/-- C1 (amended): for every input table, the hour-of-day grouping, the daily
resample and the weekly resample preserve the sum of the ridership column, and
the multi-key grouping preserves the ridership sum of the rows whose two
grouping columns are both present (pandas `groupby` drops rows with a missing
grouping value, so their ridership is lost from the grouped totals); every
aggregation sends the empty table to an empty aggregate rather than an error. -/
theorem aggregations_preserve_totals (df : Table) :
    sumVals (hourly df) = sumR df
    ∧ sumVals (resampleD df) = sumR df
    ∧ sumVals (resampleW df) = sumR df
    ∧ sumVals (rev_df df) = sumR (df.filter (fun r => (bothKeys r).isSome))
    ∧ (hourly ([] : Table) = [] ∧ resampleD ([] : Table) = []
        ∧ resampleW ([] : Table) = [] ∧ rev_df ([] : Table) = []) :=
  ⟨hourly_total df, resampleD_total df, resampleW_total df, rev_df_total df,
    aggregates_empty⟩

/-- C1 counterexample: a one-row table whose `payment_method` is missing has
ridership total 5, but the multi-key aggregate sums to 0 — the record is lost,
refuting sum preservation for the multi-key grouping as claimed. -/
theorem aggregations_preserve_totals_cex :
    sumVals (rev_df [nullKeyRow]) = 0
    ∧ sumR [nullKeyRow] = 5
    ∧ sumVals (rev_df [nullKeyRow]) ≠ sumR [nullKeyRow] := by
  have h0 : sumVals (rev_df [nullKeyRow]) = 0 := by
    simp [rev_df, nullKeyRow, exRow, bothKeys, sumVals]
  refine ⟨h0, rfl, ?_⟩
  rw [h0]
  decide

/-- C2 (amended): for every non-empty station table, the daily series built by
the forecast-preparation step contains exactly one (date, value) entry per
calendar day between the first and last observed dates inclusive — pandas
`resample('D')` gap-fills days with no observed record with a zero sum — in
strictly increasing date order; its length is `last - first + 1`, which is at
least (not at most) the number of distinct calendar days occurring in the
table's timestamps. -/
theorem prep_series_span (df : Table) (hne : df ≠ []) :
    (resampleD df).map Prod.fst = spanDays df
    ∧ (∀ d : Nat, d ∈ spanDays df ↔ minDay df ≤ d ∧ d ≤ maxDay df)
    ∧ ((resampleD df).map Prod.fst).Pairwise (· < ·)
    ∧ (resampleD df).length = maxDay df + 1 - minDay df
    ∧ ((df.map dayOf).dedup).length ≤ (resampleD df).length
    ∧ ∀ p ∈ resampleD df, p.2 = sumR (df.filter (fun r => decide (dayOf r = p.1))) := by
  have hfst := resampleD_fst df
  have hlen : (resampleD df).length = (spanDays df).length := by
    rw [← hfst, List.length_map]
  refine ⟨hfst, mem_spanDays_iff df hne, ?_, ?_, ?_, ?_⟩
  · rw [hfst]
    exact spanDays_sorted df
  · rw [hlen, spanDays_length df hne]
  · rw [hlen]
    exact dedup_days_le_span df
  · intro p hp
    unfold resampleD at hp
    rcases List.mem_map.mp hp with ⟨d, _, rfl⟩
    rfl

/-- C2 counterexample: a table with records on days 0 and 2 only.  The daily
series has an entry for day 1, a day with no observed record, and its length 3
exceeds the 2 distinct calendar days of the table — refuting both the
no-gap-filling clause and the length bound. -/
theorem prep_series_span_cex :
    (resampleD [dayZeroRow, dayTwoRow]).length = 3
    ∧ (([dayZeroRow, dayTwoRow] : Table).map dayOf).dedup.length = 2
    ∧ ¬ ((resampleD [dayZeroRow, dayTwoRow]).length
          ≤ (([dayZeroRow, dayTwoRow] : Table).map dayOf).dedup.length)
    ∧ (1, 0) ∈ resampleD [dayZeroRow, dayTwoRow]
    ∧ ∀ r ∈ ([dayZeroRow, dayTwoRow] : Table), dayOf r ≠ 1 := by
  decide

/-- Witness for the amended C2 at the concrete table `[dayZeroRow, dayTwoRow]`. -/
theorem prep_series_span_witness :
    ([dayZeroRow, dayTwoRow] : Table) ≠ []
    ∧ ((resampleD [dayZeroRow, dayTwoRow]).map Prod.fst = spanDays [dayZeroRow, dayTwoRow]
      ∧ (∀ d : Nat, d ∈ spanDays [dayZeroRow, dayTwoRow]
          ↔ minDay [dayZeroRow, dayTwoRow] ≤ d ∧ d ≤ maxDay [dayZeroRow, dayTwoRow])
      ∧ ((resampleD [dayZeroRow, dayTwoRow]).map Prod.fst).Pairwise (· < ·)
      ∧ (resampleD [dayZeroRow, dayTwoRow]).length
          = maxDay [dayZeroRow, dayTwoRow] + 1 - minDay [dayZeroRow, dayTwoRow]
      ∧ ((([dayZeroRow, dayTwoRow] : Table).map dayOf).dedup).length
          ≤ (resampleD [dayZeroRow, dayTwoRow]).length
      ∧ ∀ p ∈ resampleD [dayZeroRow, dayTwoRow],
          p.2 = sumR (([dayZeroRow, dayTwoRow] : Table).filter
            (fun r => decide (dayOf r = p.1)))) :=
  ⟨by simp, prep_series_span [dayZeroRow, dayTwoRow] (by simp)⟩

/-- A bucket key of the weekly resample is a Sunday. -/
theorem spanSundays_sunday (df : Table) (w : Nat) (hw : w ∈ spanSundays df) :
    dayofweek w = 6 := by
  unfold spanSundays at hw
  cases h1 : (df.map dayOf).min? with
  | none =>
    rw [h1] at hw
    cases h2 : (df.map dayOf).max? with
    | none => rw [h2] at hw; exact absurd hw (List.not_mem_nil w)
    | some b => rw [h2] at hw; exact absurd hw (List.not_mem_nil w)
  | some a =>
    cases h2 : (df.map dayOf).max? with
    | none => rw [h1, h2] at hw; exact absurd hw (List.not_mem_nil w)
    | some b =>
      rw [h1, h2] at hw
      rcases List.mem_map.mp hw with ⟨i, _, rfl⟩
      unfold sundayOnOrAfter dayofweek
      omega

/-- C3: for the daily series prepared from every non-empty station table and
every horizon `days ≥ 0`, the forecast dates are the historical dates of the
series followed by exactly `days` future dates; the i-th future date is
`maxDay + 1 + i`, so the future dates strictly follow the last observed date,
are strictly increasing, and are one calendar day apart (horizon 7 gives
exactly 7 such dates). -/
theorem forecast_dates_cover (df : Table) (hne : df ≠ []) (days : Nat) :
    forecast_dates df days
      = ((resampleD df).map Prod.fst)
          ++ (List.range days).map (fun i => maxDay df + 1 + i)
    ∧ ((List.range days).map (fun i => maxDay df + 1 + i)).length = days
    ∧ (∀ i : Nat, i < days →
        ((List.range days).map (fun i => maxDay df + 1 + i))[i]?
          = some (maxDay df + 1 + i))
    ∧ (∀ d ∈ (List.range days).map (fun i => maxDay df + 1 + i), maxDay df < d)
    ∧ (∀ d ∈ (resampleD df).map Prod.fst, d ≤ maxDay df) := by
  have hmax : ((resampleD df).map Prod.fst).max? = some (maxDay df) := by
    rw [resampleD_fst df]
    exact spanDays_max_eq df hne
  refine ⟨?_, by simp, ?_, ?_, ?_⟩
  · unfold forecast_dates make_future_dates
    rw [hmax]
  · intro i hi
    simp [List.getElem?_range, hi]
  · intro d hd
    rcases List.mem_map.mp hd with ⟨i, _, rfl⟩
    omega
  · rw [resampleD_fst df]
    intro d hd
    exact ((mem_spanDays_iff df hne d).mp hd).2

/-- Witness for C3 at the concrete table `[dayZeroRow, dayTwoRow]`, horizon 7. -/
theorem forecast_dates_cover_witness :
    ([dayZeroRow, dayTwoRow] : Table) ≠ []
    ∧ (forecast_dates [dayZeroRow, dayTwoRow] 7
        = ((resampleD [dayZeroRow, dayTwoRow]).map Prod.fst)
            ++ (List.range 7).map (fun i => maxDay [dayZeroRow, dayTwoRow] + 1 + i)
      ∧ ((List.range 7).map (fun i => maxDay [dayZeroRow, dayTwoRow] + 1 + i)).length = 7
      ∧ (∀ i : Nat, i < 7 →
          ((List.range 7).map (fun i => maxDay [dayZeroRow, dayTwoRow] + 1 + i))[i]?
            = some (maxDay [dayZeroRow, dayTwoRow] + 1 + i))
      ∧ (∀ d ∈ (List.range 7).map (fun i => maxDay [dayZeroRow, dayTwoRow] + 1 + i),
          maxDay [dayZeroRow, dayTwoRow] < d)
      ∧ (∀ d ∈ (resampleD [dayZeroRow, dayTwoRow]).map Prod.fst,
          d ≤ maxDay [dayZeroRow, dayTwoRow])) :=
  ⟨by simp, forecast_dates_cover [dayZeroRow, dayTwoRow] (by simp) 7⟩

/-- C4 (amended): the hourly aggregate delivered for the bar display consists
of one (hour, value) pair for each hour of day 0..23 that occurs in the
filtered table, in ascending hour order — at most 24 pairs, and fewer when
some hour has no record. -/
theorem hourly_buckets (df : Table) :
    (hourly df).map Prod.fst
        = (List.range 24).filter (fun h => df.any (fun r => decide (hourOf r = h)))
    ∧ (hourly df).length ≤ 24
    ∧ ((hourly df).map Prod.fst).Pairwise (· < ·)
    ∧ ∀ p ∈ hourly df, p.1 < 24 ∧ (∃ r ∈ df, hourOf r = p.1)
        ∧ p.2 = sumR (df.filter (fun r => decide (hourOf r = p.1))) := by
  have hfst : (hourly df).map Prod.fst
      = (List.range 24).filter (fun h => df.any (fun r => decide (hourOf r = h))) := by
    simp [hourly, List.map_map, Function.comp_def]
  refine ⟨hfst, ?_, ?_, ?_⟩
  · have : (hourly df).length = ((hourly df).map Prod.fst).length := by
      rw [List.length_map]
    rw [this, hfst]
    calc ((List.range 24).filter _).length ≤ (List.range 24).length :=
          List.length_filter_le _ _
      _ = 24 := List.length_range 24
  · rw [hfst]
    exact (List.pairwise_lt_range 24).filter _
  · intro p hp
    unfold hourly at hp
    rcases List.mem_map.mp hp with ⟨h, hh, rfl⟩
    have hmem := List.mem_filter.mp hh
    refine ⟨List.mem_range.mp hmem.1, ?_, rfl⟩
    rcases List.any_eq_true.mp hmem.2 with ⟨r, hr, hdec⟩
    exact ⟨r, hr, of_decide_eq_true hdec⟩

/-- C4 counterexample: a one-row table (hour 1) yields a single (hour, value)
pair, not 24. -/
theorem hourly_buckets_cex :
    (hourly [dayZeroRow]).length = 1 ∧ (hourly [dayZeroRow]).length ≠ 24 := by
  decide

/-- C5 (amended): records with a missing/null value in a grouping column are
excluded from the multi-key aggregate (pandas `groupby` default
`dropna=True`): the aggregate equals that of the table restricted to rows with
both grouping values present, such records contribute nothing to the grouped
totals, and every bucket key comes from a record with both values present —
missing values never form a bucket of their own. -/
theorem multiKey_null_dropped (df : Table) :
    rev_df df = rev_df (df.filter (fun r => (bothKeys r).isSome))
    ∧ sumVals (rev_df df) = sumR (df.filter (fun r => (bothKeys r).isSome))
    ∧ ∀ k ∈ revKeys df, ∃ r ∈ df,
        r.payment_method = some k.1 ∧ r.fare_class_category = some k.2 := by
  refine ⟨rev_df_restrict df, rev_df_total df, ?_⟩
  intro k hk
  rcases List.mem_filterMap.mp ((mem_revKeys df k).mp hk) with ⟨r, hr, hbk⟩
  refine ⟨r, hr, ?_⟩
  unfold bothKeys at hbk
  cases hpm : r.payment_method with
  | none => rw [hpm] at hbk; cases hbk
  | some p =>
    cases hfc : r.fare_class_category with
    | none => rw [hpm, hfc] at hbk; cases hbk
    | some f =>
      rw [hpm, hfc] at hbk
      cases hbk
      exact ⟨rfl, rfl⟩

/-- C5 counterexample: a one-row table whose `payment_method` is missing
yields an empty multi-key aggregate — the missing value does not form its own
bucket, and the record's ridership of 5 does not reach the grouped totals. -/
theorem multiKey_null_dropped_cex :
    rev_df [nullKeyRow] = []
    ∧ nullKeyRow.payment_method = none
    ∧ nullKeyRow.ridership = 5
    ∧ sumVals (rev_df [nullKeyRow]) = 0 := by
  refine ⟨?_, rfl, rfl, ?_⟩ <;>
    simp [rev_df, nullKeyRow, exRow, bothKeys, sumVals]

/-- C6: the date-range filter and the station-equality filter are independent
predicate intersections and commute — applying them in either order yields the
same subset (and the same row order). -/
theorem filters_commute (df : Table) (a b : Nat) (s : String) :
    filterStation (filterDate df a b) s = filterDate (filterStation df s) a b := by
  unfold filterStation filterDate
  rw [List.filter_filter, List.filter_filter]
  exact List.filter_congr (fun r _ => Bool.and_comm _ _)

/-- C7: for start ≤ end, the date-range filter keeps exactly the rows whose
calendar date lies between start and end inclusive; the mask reads only the
calendar date, never the time of day; a range matching zero rows returns the
empty table, never an error. -/
theorem filterDate_spec (df : Table) (a b : Nat) (_hab : a ≤ b) :
    (∀ r : RidershipRecord, r ∈ filterDate df a b ↔ r ∈ df ∧ a ≤ dayOf r ∧ dayOf r ≤ b)
    ∧ (∀ r₁ r₂ : RidershipRecord, dayOf r₁ = dayOf r₂ →
        (decide (a ≤ dayOf r₁) && decide (dayOf r₁ ≤ b))
          = (decide (a ≤ dayOf r₂) && decide (dayOf r₂ ≤ b)))
    ∧ ((∀ r ∈ df, ¬ (a ≤ dayOf r ∧ dayOf r ≤ b)) → filterDate df a b = []) := by
  refine ⟨?_, ?_, ?_⟩
  · intro r
    simp [filterDate, List.mem_filter, and_assoc]
  · intro r₁ r₂ h
    rw [h]
  · intro h
    rw [filterDate, List.filter_eq_nil_iff]
    intro r hr
    have := h r hr
    simp only [Bool.and_eq_true, decide_eq_true_eq]
    omega

/-- Witness for C7 at a concrete table and the range [0, 1]. -/
theorem filterDate_spec_witness :
    (0 : Nat) ≤ 1
    ∧ ((∀ r : RidershipRecord,
          r ∈ filterDate [dayZeroRow, dayTwoRow] 0 1
            ↔ r ∈ ([dayZeroRow, dayTwoRow] : Table) ∧ 0 ≤ dayOf r ∧ dayOf r ≤ 1)
      ∧ (∀ r₁ r₂ : RidershipRecord, dayOf r₁ = dayOf r₂ →
          (decide (0 ≤ dayOf r₁) && decide (dayOf r₁ ≤ 1))
            = (decide (0 ≤ dayOf r₂) && decide (dayOf r₂ ≤ 1)))
      ∧ ((∀ r ∈ ([dayZeroRow, dayTwoRow] : Table), ¬ (0 ≤ dayOf r ∧ dayOf r ≤ 1)) →
          filterDate [dayZeroRow, dayTwoRow] 0 1 = [])) :=
  ⟨Nat.zero_le 1, filterDate_spec [dayZeroRow, dayTwoRow] 0 1 (Nat.zero_le 1)⟩

/-- C8: fitting the forecast model on a prepared series with fewer than 2
points fails with a ForecastError rather than returning any predictions; in
particular the series prepared from the empty filtered table is empty, and
fitting it fails. -/
theorem fit_insufficient_history (series : List (Nat × Int))
    (hlen : series.length < 2) :
    fitModel series = .error .insufficientHistory
    ∧ resampleD ([] : Table) = []
    ∧ fitModel (resampleD ([] : Table)) = .error .insufficientHistory := by
  refine ⟨?_, rfl, rfl⟩
  unfold fitModel
  rw [if_pos hlen]

/-- Witness for C8 at the concrete one-point series `[(0, 5)]`. -/
theorem fit_insufficient_history_witness :
    ([((0 : Nat), (5 : Int))] : List (Nat × Int)).length < 2
    ∧ (fitModel [((0 : Nat), (5 : Int))] = .error .insufficientHistory
      ∧ resampleD ([] : Table) = []
      ∧ fitModel (resampleD ([] : Table)) = .error .insufficientHistory) :=
  ⟨by decide, fit_insufficient_history [(0, 5)] (by decide)⟩

/-- C9: the weekly aggregate uses Sunday-ending calendar weeks: every weekly
bucket key is a Sunday; `sundayOnOrAfter d` is the first Sunday on or after
day `d` (it is a Sunday, is at least `d`, and is minimal among such Sundays);
each bucket sums exactly the rows whose date's first Sunday on or after is the
bucket's label, and every row's label is among the buckets. -/
theorem weekly_sunday_buckets (df : Table) :
    (∀ p ∈ resampleW df, dayofweek p.1 = 6)
    ∧ (∀ d : Nat, dayofweek (sundayOnOrAfter d) = 6
        ∧ d ≤ sundayOnOrAfter d
        ∧ ∀ s : Nat, dayofweek s = 6 → d ≤ s → sundayOnOrAfter d ≤ s)
    ∧ (∀ p ∈ resampleW df,
        p.2 = sumR (df.filter (fun r => decide (sundayOnOrAfter (dayOf r) = p.1))))
    ∧ (∀ r ∈ df, sundayOnOrAfter (dayOf r) ∈ spanSundays df) := by
  refine ⟨?_, ?_, ?_, fun r hr => sunday_mem_spanSundays df r hr⟩
  · intro p hp
    unfold resampleW at hp
    rcases List.mem_map.mp hp with ⟨w, hw, rfl⟩
    exact spanSundays_sunday df w hw
  · intro d
    unfold sundayOnOrAfter dayofweek
    refine ⟨by omega, by omega, ?_⟩
    intro s hs hds
    omega
  · intro p hp
    unfold resampleW at hp
    rcases List.mem_map.mp hp with ⟨w, _, rfl⟩
    rfl

/-- C10: a sample drawn at `min(n, 2000)` distinct valid positions has exactly
`min(n, 2000)` rows, each a row of the filtered table, and is a
sub-permutation of the table — no input row position appears more than once. -/
theorem sample_bounded (df : Table) (idxs : List Nat)
    (h : IsSampleDraw df (sampleSize df) idxs) :
    (samp df idxs).length = min df.length 2000
    ∧ (∀ r ∈ samp df idxs, r ∈ df)
    ∧ List.Subperm (samp df idxs) df := by
  obtain ⟨hnd, hlen, hvalid⟩ := h
  refine ⟨?_, fun r hr => samp_mem df idxs r hr, samp_subperm df idxs hnd hvalid⟩
  rw [samp_length df idxs hvalid, hlen]
  rfl

/-- Witness for C10 at a concrete three-row table and the draw [2, 0, 1]. -/
theorem sample_bounded_witness :
    IsSampleDraw [dayZeroRow, dayTwoRow, nullKeyRow]
        (sampleSize [dayZeroRow, dayTwoRow, nullKeyRow]) [2, 0, 1]
    ∧ ((samp [dayZeroRow, dayTwoRow, nullKeyRow] [2, 0, 1]).length
          = min ([dayZeroRow, dayTwoRow, nullKeyRow] : Table).length 2000
      ∧ (∀ r ∈ samp [dayZeroRow, dayTwoRow, nullKeyRow] [2, 0, 1],
          r ∈ ([dayZeroRow, dayTwoRow, nullKeyRow] : Table))
      ∧ List.Subperm (samp [dayZeroRow, dayTwoRow, nullKeyRow] [2, 0, 1])
          [dayZeroRow, dayTwoRow, nullKeyRow]) :=
  ⟨⟨by decide, by decide, by decide⟩,
    sample_bounded [dayZeroRow, dayTwoRow, nullKeyRow] [2, 0, 1]
      ⟨by decide, by decide, by decide⟩⟩

end Dashboard
